import Mathlib

/-!
Shallow embedding of the turf-booking application (src/app.py).

The relational store (tables users, turfs, bookings) is modelled as lists of
records plus autoincrement counters; each HTTP handler that the claims
concern becomes a function from the store (and the request inputs) to a new
store paired with an outcome.  SQLite REAL amounts are modelled as rationals,
loyalty points as integers (SQLite INTEGER columns are signed and the code
never clamps them).
-/

namespace TurfBooking

/-- Booking status column; the schema gives bookings a status column with
values Confirmed / Cancelled. -/
inductive BStatus where
  | Confirmed
  | Cancelled
deriving Repr, DecidableEq

/-- Modelled from the spec: schema.sql is not under src/; spec section 6 gives
the persisted schema with `status default Confirmed` on bookings, and the
INSERT in execute_booking omits the status column, so new bookings get this
default. -/
def defaultBookingStatus : BStatus := BStatus.Confirmed

/-- Row of the users table (users(id, username unique, email, password_hash,
loyalty_points, is_admin)). -/
structure User where
  id : Nat
  username : String
  email : String
  password_hash : String
  loyalty_points : Int
  is_admin : Bool
deriving Repr, DecidableEq

/-- Row of the turfs table (turfs(id, name, location, description,
price_per_hour, image_url)). -/
structure Turf where
  id : Nat
  name : String
  location : String
  description : String
  price_per_hour : ℚ
  image_url : String
deriving Repr, DecidableEq

/-- Row of the bookings table (bookings(id, user_id, turf_id, booking_time,
amount_paid, points_redeemed, status)). -/
structure Booking where
  id : Nat
  user_id : Nat
  turf_id : Nat
  booking_time : String
  amount_paid : ℚ
  points_redeemed : Int
  status : BStatus
deriving Repr, DecidableEq

/-- The whole relational store, with the autoincrement counters of the three
tables. -/
structure DB where
  users : List User
  turfs : List Turf
  bookings : List Booking
  next_user_id : Nat
  next_turf_id : Nat
  next_booking_id : Nat
deriving Repr, DecidableEq

/-- The empty, freshly initialised database. -/
def DB.init : DB := ⟨[], [], [], 1, 1, 1⟩

/-- SELECT * FROM users WHERE id = ? (fetchone). -/
def findUser (s : DB) (uid : Nat) : Option User :=
  s.users.find? (fun u => u.id == uid)

/-- SELECT * FROM turfs WHERE id = ? (fetchone). -/
def findTurf (s : DB) (tid : Nat) : Option Turf :=
  s.turfs.find? (fun t => t.id == tid)

/-- booking_datetime = f"{date} {time}" in check_availability and
execute_booking. -/
def mkBookingTime (date time : String) : String := date ++ " " ++ time

/-- The WHERE clause `turf_id = ? AND booking_time = ? AND status =
"Confirmed"` used by check_availability and by the recheck in
execute_booking. -/
def isConfirmedAt (tid : Nat) (bt : String) (b : Booking) : Bool :=
  b.turf_id == tid && b.booking_time == bt && decide (b.status = BStatus.Confirmed)

/-- UPDATE users SET loyalty_points = <f current> WHERE id = ?.
execute_booking writes an absolute value (f ignores its argument) and
cancel_booking writes loyalty_points + delta. -/
def updatePoints (users : List User) (uid : Nat) (f : Int → Int) : List User :=
  users.map (fun u => if u.id == uid then { u with loyalty_points := f u.loyalty_points } else u)

/-- GET /check_availability: returns available = (no Confirmed booking row
matches the turf and the assembled "date time" string).  Pure read. -/
def check_availability (s : DB) (tid : Nat) (date time : String) : Bool :=
  (s.bookings.find? (isConfirmedAt tid (mkBookingTime date time))).isNone

/-- Result of POST /book/confirm (phase 1, the quote). -/
inductive QuoteResult where
  | notAuthenticated
  | validationError
  | notFound
  | quote (date time : String) (final_amount discount : ℚ) (points_to_redeem : Int)
deriving Repr, DecidableEq

/-- POST /book/confirm (confirm_booking in app.py): requires a logged-in
user; validates that turf_id, date and time are all present and non-empty
(Python `all([turf_id, date, time])`); looks up the turf; computes the quote.
`discount = amount * 0.25` becomes `amount * (1/4)` over ℚ.  Nothing is
persisted. -/
def confirm_booking (s : DB) (uid : Nat) (turf_id? : Option Nat)
    (date? time? : Option String) (redeem_points : Bool) : QuoteResult :=
  match findUser s uid with
  | none => QuoteResult.notAuthenticated
  | some user =>
    match turf_id?, date?, time? with
    | some tid, some date, some time =>
      if date == "" || time == "" then QuoteResult.validationError
      else
        match findTurf s tid with
        | none => QuoteResult.notFound
        | some turf =>
          let amount := turf.price_per_hour
          let pd : Int × ℚ :=
            if redeem_points && decide (50 ≤ user.loyalty_points)
            then (50, amount * (1/4)) else (0, 0)
          QuoteResult.quote date time (amount - pd.2) pd.2 pd.1
    | _, _, _ => QuoteResult.validationError

/-- Result of POST /book/execute (phase 2, the commit). -/
inductive ExecOutcome where
  | notAuthenticated
  | conflict
  | booked (booking_id : Nat)
deriving Repr, DecidableEq

/-- POST /book/execute (execute_booking in app.py): requires a logged-in
user; rechecks the slot; on conflict flashes an error and mutates nothing;
otherwise inserts the booking row (status left to its schema default
Confirmed) with the caller-supplied amount and points and writes the user's
new balance `current - points_redeemed + 10`, committing both in one
transaction. -/
def execute_booking (s : DB) (uid tid : Nat) (date time : String)
    (final_amount : ℚ) (points_redeemed : Int) : DB × ExecOutcome :=
  match findUser s uid with
  | none => (s, ExecOutcome.notAuthenticated)
  | some user =>
    let bt := mkBookingTime date time
    if (s.bookings.find? (isConfirmedAt tid bt)).isSome then
      (s, ExecOutcome.conflict)
    else
      let new_points := user.loyalty_points - points_redeemed + 10
      let bid := s.next_booking_id
      let booking : Booking :=
        { id := bid, user_id := uid, turf_id := tid, booking_time := bt,
          amount_paid := final_amount, points_redeemed := points_redeemed,
          status := defaultBookingStatus }
      ({ s with
          bookings := s.bookings ++ [booking],
          users := updatePoints s.users uid (fun _ => new_points),
          next_booking_id := bid + 1 },
       ExecOutcome.booked bid)

/-- Result of POST /cancel_booking/<id>. -/
inductive CancelOutcome where
  | notAuthenticated
  | notFound
  | cancelled
deriving Repr, DecidableEq

/-- POST /cancel_booking/<id> (cancel_booking in app.py): requires a
logged-in user; fetches the booking by `id = ? AND user_id = ?`; if absent,
flashes not-found/forbidden and mutates nothing; if present, sets its status
to Cancelled (with no check of the current status) and applies the points
change (+ points_redeemed when positive, − 10) when it is non-zero. -/
def cancel_booking (s : DB) (booking_id uid : Nat) : DB × CancelOutcome :=
  match findUser s uid with
  | none => (s, CancelOutcome.notAuthenticated)
  | some _ =>
    match s.bookings.find? (fun b => b.id == booking_id && b.user_id == uid) with
    | none => (s, CancelOutcome.notFound)
    | some booking =>
      let bookings' := s.bookings.map
        (fun b => if b.id == booking_id then { b with status := BStatus.Cancelled } else b)
      let points_change : Int :=
        (if 0 < booking.points_redeemed then booking.points_redeemed else 0) - 10
      let users' :=
        if points_change ≠ 0 then updatePoints s.users uid (fun x => x + points_change)
        else s.users
      ({ s with bookings := bookings', users := users' }, CancelOutcome.cancelled)

/-- Result of POST /admin/turf/add. -/
inductive AddTurfOutcome where
  | notAdmin
  | badRequest
  | added (turf_id : Nat)
deriving Repr, DecidableEq

/-- POST /admin/turf/add (add_turf in app.py): requires a logged-in admin;
reads the five required form fields with bracket access, so a missing field
aborts the request (HTTP 400) before any insert; when all are present one
turf row is inserted. -/
def add_turf (s : DB) (uid : Nat) (name? location? description? : Option String)
    (price? : Option ℚ) (image_url? : Option String) : DB × AddTurfOutcome :=
  match findUser s uid with
  | none => (s, AddTurfOutcome.notAdmin)
  | some user =>
    if !user.is_admin then (s, AddTurfOutcome.notAdmin)
    else
      match name?, location?, description?, price?, image_url? with
      | some name, some location, some description, some price, some image_url =>
        let tid := s.next_turf_id
        ({ s with
            turfs := s.turfs ++ [⟨tid, name, location, description, price, image_url⟩],
            next_turf_id := tid + 1 },
         AddTurfOutcome.added tid)
      | _, _, _, _, _ => (s, AddTurfOutcome.badRequest)

/-- POST /admin/turf/remove/<id> (remove_turf in app.py): requires a
logged-in admin; deletes all bookings referencing the turf, then the turf
itself, in one transaction.  Returns whether the deletion ran. -/
def remove_turf (s : DB) (uid tid : Nat) : DB × Bool :=
  match findUser s uid with
  | none => (s, false)
  | some user =>
    if !user.is_admin then (s, false)
    else
      ({ s with
          bookings := s.bookings.filter (fun b => !(b.turf_id == tid)),
          turfs := s.turfs.filter (fun t => !(t.id == tid)) },
       true)

/-- Modelled from the spec: POST /register (register in app.py) inserts a
users row without the loyalty_points and is_admin columns; schema.sql is not
under src/, and the spec (sections 3 and 6) describes the balance as created
at registration and only mutated by booking commit/cancel, so the schema
defaults are taken to be 0 points and non-admin.  Password hashing is
abstracted: the stored hash is taken as input. -/
def register (s : DB) (username email password_hash : String) : DB × Bool :=
  if username == "" || password_hash == "" then (s, false)
  else if (s.users.find? (fun u => u.username == username)).isSome then (s, false)
  else
    ({ s with
        users := s.users ++ [⟨s.next_user_id, username, email, password_hash, 0, false⟩],
        next_user_id := s.next_user_id + 1 },
     true)

/-- Two bookings clash when both are Confirmed for the same (turf,
date-time) pair. -/
def slotClash (b1 b2 : Booking) : Prop :=
  b1.status = BStatus.Confirmed ∧ b2.status = BStatus.Confirmed ∧
    b1.turf_id = b2.turf_id ∧ b1.booking_time = b2.booking_time

instance : DecidablePred fun p : Booking × Booking => slotClash p.1 p.2 :=
  fun _ => by unfold slotClash; infer_instance

/-- The cross-row invariant of spec section 3: at most one Confirmed booking
per (turf, date-time) pair. -/
def UniqueConfirmed (s : DB) : Prop :=
  s.bookings.Pairwise (fun b1 b2 => ¬ slotClash b1 b2)

/-- States reachable from the fresh database by sequential execution of the
mutating handlers (the read-only handlers do not change the store). -/
inductive Reachable : DB → Prop where
  | init : Reachable DB.init
  | register (s : DB) (u e p : String) :
      Reachable s → Reachable (register s u e p).1
  | add_turf (s : DB) (uid : Nat) (n l d : Option String) (pr : Option ℚ)
      (i : Option String) :
      Reachable s → Reachable (add_turf s uid n l d pr i).1
  | remove_turf (s : DB) (uid tid : Nat) :
      Reachable s → Reachable (remove_turf s uid tid).1
  | execute_booking (s : DB) (uid tid : Nat) (date time : String) (amt : ℚ)
      (p : Int) :
      Reachable s → Reachable (execute_booking s uid tid date time amt p).1
  | cancel_booking (s : DB) (bid uid : Nat) :
      Reachable s → Reachable (cancel_booking s bid uid).1

/-- Concrete store used below: user 1 has 100 points and owns booking 1, a
Confirmed booking of turf 1 with 50 points redeemed. -/
def Ydb : DB :=
  ⟨[⟨1, "alice", "a@x", "h", 100, false⟩], [],
   [⟨1, 1, 1, "2026-01-01 10:00", 750, 50, BStatus.Confirmed⟩], 2, 1, 2⟩

/-- Concrete store used below: user 1 has 0 points, turf 1 exists, no
bookings. -/
def Xdb : DB :=
  ⟨[⟨1, "bob", "b@x", "h", 0, false⟩], [⟨1, "T", "L", "D", 100, "img"⟩], [], 2, 2, 1⟩

/-- Concrete store used below: user 1 has 100 points, no bookings. -/
def Zdb : DB :=
  ⟨[⟨1, "carol", "c@x", "h", 100, false⟩], [], [], 2, 1, 1⟩

/-- Concrete store used below: admin user 7, no turfs. -/
def Adb : DB :=
  ⟨[⟨7, "root", "r@x", "h", 0, true⟩], [], [], 8, 1, 1⟩

/-- Concrete store used below: user 1 has 60 points; turf 1 costs 1000 per
hour (the worked example of spec section 8). -/
def Qdb : DB :=
  ⟨[⟨1, "dave", "d@x", "h", 60, false⟩], [⟨1, "T", "L", "D", 1000, "img"⟩], [], 2, 2, 1⟩

theorem isConfirmedAt_iff (tid : Nat) (bt : String) (b : Booking) :
    isConfirmedAt tid bt b = true ↔
      b.turf_id = tid ∧ b.booking_time = bt ∧ b.status = BStatus.Confirmed := by
  simp [isConfirmedAt, and_assoc]

theorem find?_updatePoints (users : List User) (uid : Nat) (f : Int → Int) :
    (updatePoints users uid f).find? (fun u => u.id == uid) =
      (users.find? (fun u => u.id == uid)).map
        (fun u => { u with loyalty_points := f u.loyalty_points }) := by
  induction users with
  | nil => simp [updatePoints]
  | cons u us ih =>
    by_cases h : u.id = uid
    · simp [updatePoints, h]
    · simp only [updatePoints, List.map_cons] at ih ⊢
      rw [List.find?_cons_of_neg, List.find?_cons_of_neg, ih] <;> simp [h]

/-- C8: the availability checker returns true iff no booking for the exact
(turf, date, time) slot has status Confirmed, and a turf identifier that no
booking row references (in particular an unknown turf) yields true.  The
checker is a pure function of the store and returns only a boolean, so it
performs no mutation. -/
theorem check_availability_spec (s : DB) (tid : Nat) (date time : String) :
    (check_availability s tid date time = true ↔
      ¬ ∃ b ∈ s.bookings, b.turf_id = tid ∧ b.booking_time = mkBookingTime date time ∧
        b.status = BStatus.Confirmed)
    ∧ ((∀ b ∈ s.bookings, b.turf_id ≠ tid) →
      check_availability s tid date time = true) := by
  have key : check_availability s tid date time = true ↔
      ∀ b ∈ s.bookings, ¬ (b.turf_id = tid ∧ b.booking_time = mkBookingTime date time ∧
        b.status = BStatus.Confirmed) := by
    rw [check_availability, Option.isNone_iff_eq_none, List.find?_eq_none]
    constructor
    · intro h b hb hc
      exact h b hb ((isConfirmedAt_iff tid (mkBookingTime date time) b).mpr hc)
    · intro h b hb hc
      exact h b hb ((isConfirmedAt_iff tid (mkBookingTime date time) b).mp hc)
  constructor
  · rw [key]
    constructor
    · intro h hex
      obtain ⟨b, hb, hc⟩ := hex
      exact h b hb hc
    · intro h b hb hc
      exact h ⟨b, hb, hc⟩
  · intro hunk
    rw [key]
    intro b hb hc
    exact hunk b hb hc.1

/-- C8 witness: on the concrete store Ydb, turf 2 appears in no booking row,
so the checker reports it available. -/
theorem check_availability_spec_witness :
    check_availability Ydb 2 "2026-01-01" "10:00" = true :=
  (check_availability_spec Ydb 2 "2026-01-01" "10:00").2 (by decide)

/-- C2: a commit request by an authenticated user for a slot that already
has a Confirmed booking aborts with the conflict outcome and returns the
store unchanged: no booking row is inserted and no balance is modified. -/
theorem conflict_aborts (s : DB) (uid tid : Nat) (date time : String)
    (amt : ℚ) (p : Int)
    (hu : (findUser s uid).isSome)
    (hocc : ∃ b ∈ s.bookings, b.turf_id = tid ∧
      b.booking_time = mkBookingTime date time ∧ b.status = BStatus.Confirmed) :
    execute_booking s uid tid date time amt p = (s, ExecOutcome.conflict) := by
  obtain ⟨user, hu⟩ := Option.isSome_iff_exists.mp hu
  have hfind : (s.bookings.find? (isConfirmedAt tid (mkBookingTime date time))).isSome := by
    rw [List.find?_isSome]
    obtain ⟨b, hb, hc⟩ := hocc
    exact ⟨b, hb, (isConfirmedAt_iff tid (mkBookingTime date time) b).mpr hc⟩
  rw [execute_booking, hu]
  simp [hfind]

/-- C2 witness: in Ydb the slot (turf 1, "2026-01-01 10:00") is occupied by
the Confirmed booking 1, so a commit for it by user 1 conflicts and leaves
the store untouched. -/
theorem conflict_aborts_witness :
    execute_booking Ydb 1 1 "2026-01-01" "10:00" 750 0 = (Ydb, ExecOutcome.conflict) :=
  conflict_aborts Ydb 1 1 "2026-01-01" "10:00" 750 0 (by decide) (by decide)

/-- C9: a cancellation request by an authenticated user for a booking id
that does not exist, or that belongs to a different user, is a no-op on the
store and reports not-found/forbidden. -/
theorem cancel_unowned_noop (s : DB) (bid uid : Nat)
    (hu : (findUser s uid).isSome)
    (h : ∀ b ∈ s.bookings, ¬(b.id = bid ∧ b.user_id = uid)) :
    cancel_booking s bid uid = (s, CancelOutcome.notFound) := by
  obtain ⟨user, hu⟩ := Option.isSome_iff_exists.mp hu
  have hfind : s.bookings.find? (fun b => b.id == bid && b.user_id == uid) = none := by
    rw [List.find?_eq_none]
    intro b hb
    simpa using h b hb
  rw [cancel_booking, hu, hfind]

/-- C9 witness: no booking row in Ydb has id 5, so user 1's cancellation
request for booking 5 reports not-found and leaves the store unchanged. -/
theorem cancel_unowned_noop_witness :
    cancel_booking Ydb 5 1 = (Ydb, CancelOutcome.notFound) :=
  cancel_unowned_noop Ydb 5 1 (by decide) (by decide)

/-- C4: for an authenticated user and an existing turf with price P, the
quote has discount 0.25 × P, 50 points to redeem and final amount
P − 0.25 × P exactly when the discount flag is set and the user's balance is
at least 50, and otherwise discount 0, 0 points and final amount P. -/
theorem quote_spec (s : DB) (uid tid : Nat) (date time : String) (redeem : Bool)
    (user : User) (turf : Turf)
    (hu : findUser s uid = some user) (ht : findTurf s tid = some turf)
    (hd : date ≠ "") (htm : time ≠ "") :
    confirm_booking s uid (some tid) (some date) (some time) redeem =
      (if redeem = true ∧ 50 ≤ user.loyalty_points then
        QuoteResult.quote date time
          (turf.price_per_hour - turf.price_per_hour * (1/4))
          (turf.price_per_hour * (1/4)) 50
      else QuoteResult.quote date time turf.price_per_hour 0 0) := by
  by_cases hr : redeem = true ∧ 50 ≤ user.loyalty_points <;>
    simp [confirm_booking, hu, ht, hd, htm, hr]

/-- C4 witness: the spec's worked example: price 1000, balance 60, redeem
set, gives final amount 750, discount 250 and 50 points to redeem. -/
theorem quote_spec_witness :
    confirm_booking Qdb 1 (some 1) (some "2026-01-01") (some "10:00") true =
      QuoteResult.quote "2026-01-01" "10:00" 750 250 50 := by
  have h := quote_spec Qdb 1 1 "2026-01-01" "10:00" true
    ⟨1, "dave", "d@x", "h", 60, false⟩ ⟨1, "T", "L", "D", 1000, "img"⟩
    rfl rfl (by decide) (by decide)
  rw [h]
  norm_num

/-- C10: an admin add-turf request with any of the five required fields
missing aborts with an error and inserts nothing, and a request with all
five present inserts exactly one new turf row. -/
theorem add_turf_spec (s : DB) (uid : Nat) (user : User)
    (hu : findUser s uid = some user) (ha : user.is_admin = true)
    (n l d : Option String) (pr : Option ℚ) (i : Option String) :
    ((n = none ∨ l = none ∨ d = none ∨ pr = none ∨ i = none) →
        add_turf s uid n l d pr i = (s, AddTurfOutcome.badRequest))
    ∧ (∀ nv lv dv pv iv, n = some nv → l = some lv → d = some dv →
        pr = some pv → i = some iv →
        add_turf s uid n l d pr i =
          ({ s with
              turfs := s.turfs ++ [⟨s.next_turf_id, nv, lv, dv, pv, iv⟩],
              next_turf_id := s.next_turf_id + 1 },
           AddTurfOutcome.added s.next_turf_id)) := by
  constructor
  · intro hmiss
    rcases n with _ | nv <;> rcases l with _ | lv <;> rcases d with _ | dv <;>
      rcases pr with _ | pv <;> rcases i with _ | iv <;>
      simp_all [add_turf, hu, ha]
  · rintro nv lv dv pv iv rfl rfl rfl rfl rfl
    rw [add_turf, hu]
    simp [ha]

/-- C10 witness: in Adb (admin user 7), a request missing the name inserts
nothing, and a complete request appends exactly one turf row. -/
theorem add_turf_spec_witness :
    add_turf Adb 7 none (some "L") (some "D") (some 100) (some "img") =
      (Adb, AddTurfOutcome.badRequest)
    ∧ add_turf Adb 7 (some "N") (some "L") (some "D") (some 100) (some "img") =
      ({ Adb with
          turfs := Adb.turfs ++ [⟨Adb.next_turf_id, "N", "L", "D", 100, "img"⟩],
          next_turf_id := Adb.next_turf_id + 1 },
       AddTurfOutcome.added Adb.next_turf_id) := by
  constructor
  · exact (add_turf_spec Adb 7 ⟨7, "root", "r@x", "h", 0, true⟩ rfl rfl
      none (some "L") (some "D") (some 100) (some "img")).1 (Or.inl rfl)
  · exact (add_turf_spec Adb 7 ⟨7, "root", "r@x", "h", 0, true⟩ rfl rfl
      (some "N") (some "L") (some "D") (some 100) (some "img")).2
      "N" "L" "D" 100 "img" rfl rfl rfl rfl rfl

/-- Equation for execute_booking on a free slot: the commit inserts the
booking row and writes the new balance in one returned store. -/
theorem execute_booking_free_eq (s : DB) (uid tid : Nat) (date time : String)
    (amt : ℚ) (p : Int) (user : User)
    (hu : findUser s uid = some user)
    (hnone : s.bookings.find? (isConfirmedAt tid (mkBookingTime date time)) = none) :
    execute_booking s uid tid date time amt p =
      ({ s with
          bookings := s.bookings ++ [⟨s.next_booking_id, uid, tid,
            mkBookingTime date time, amt, p, BStatus.Confirmed⟩],
          users := updatePoints s.users uid (fun _ => user.loyalty_points - p + 10),
          next_booking_id := s.next_booking_id + 1 },
       ExecOutcome.booked s.next_booking_id) := by
  rw [execute_booking, hu]
  simp [hnone, defaultBookingStatus]

/-- C3: a commit by an authenticated user with balance b and submitted
points p on a free slot reports success, stores the balance b − p + 10,
appends exactly one booking row with status Confirmed carrying the submitted
amount and points, and leaves the turfs table unchanged; both mutations are
delivered in the single returned store (the code commits them in one
transaction). -/
theorem commit_success_spec (s : DB) (uid tid : Nat) (date time : String)
    (amt : ℚ) (p : Int) (user : User)
    (hu : findUser s uid = some user)
    (hfree : ∀ b ∈ s.bookings, ¬(b.turf_id = tid ∧
      b.booking_time = mkBookingTime date time ∧ b.status = BStatus.Confirmed)) :
    (execute_booking s uid tid date time amt p).2 = ExecOutcome.booked s.next_booking_id
    ∧ findUser (execute_booking s uid tid date time amt p).1 uid =
        some { user with loyalty_points := user.loyalty_points - p + 10 }
    ∧ (execute_booking s uid tid date time amt p).1.bookings =
        s.bookings ++ [⟨s.next_booking_id, uid, tid, mkBookingTime date time, amt, p,
          BStatus.Confirmed⟩]
    ∧ (execute_booking s uid tid date time amt p).1.turfs = s.turfs := by
  have hu' : s.users.find? (fun u => u.id == uid) = some user := hu
  have hnone : s.bookings.find? (isConfirmedAt tid (mkBookingTime date time)) = none := by
    rw [List.find?_eq_none]
    intro b hb hc
    exact hfree b hb ((isConfirmedAt_iff tid (mkBookingTime date time) b).mp hc)
  rw [execute_booking_free_eq s uid tid date time amt p user hu hnone]
  refine ⟨rfl, ?_, rfl, rfl⟩
  show (updatePoints s.users uid (fun _ => user.loyalty_points - p + 10)).find?
      (fun u => u.id == uid) = _
  rw [find?_updatePoints, hu']
  rfl

/-- C3 witness: user 1 of Xdb (balance 0) commits turf 1 at a free slot with
0 points redeemed; the stored balance becomes 0 − 0 + 10 = 10. -/
theorem commit_success_spec_witness :
    findUser (execute_booking Xdb 1 1 "2026-01-02" "11:00" 100 0).1 1 =
      some ⟨1, "bob", "b@x", "h", 10, false⟩ := by
  have h := (commit_success_spec Xdb 1 1 "2026-01-02" "11:00" 100 0
    ⟨1, "bob", "b@x", "h", 0, false⟩ rfl (by decide)).2.1
  simpa using h

/-- C7 fails on the code: in Xdb user 1 has balance 0, the slot is free, and
execute_booking accepts the caller-supplied points_redeemed = 50 with no
check, storing the balance 0 − 50 + 10 = −40 < 0. -/
theorem commit_drives_balance_negative :
    (findUser (execute_booking Xdb 1 1 "2026-01-01" "10:00" 100 50).1 1).map
      User.loyalty_points = some (-40) ∧ ((-40 : Int) < 0) := by
  exact ⟨rfl, by decide⟩

/-- C6 fails on the code: cancel_booking never checks the booking's current
status, so cancelling booking 1 of Ydb (points_redeemed 50) twice applies
the +50 − 10 adjustment twice: user 1's balance goes 100 → 140 → 180. -/
theorem cancel_reapplies_points :
    (findUser (cancel_booking Ydb 1 1).1 1).map User.loyalty_points = some 140
    ∧ (findUser (cancel_booking (cancel_booking Ydb 1 1).1 1 1).1 1).map
        User.loyalty_points = some 180 := by
  exact ⟨rfl, rfl⟩

theorem findUser_def (s : DB) (uid : Nat) :
    findUser s uid = s.users.find? (fun u => u.id == uid) := rfl

/-- Equation for cancel_booking when the booking is found: the status map
and the conditional points adjustment are applied to the store. -/
theorem cancel_booking_found_eq (s : DB) (bid uid : Nat) (user : User) (booking : Booking)
    (hu : findUser s uid = some user)
    (hb : s.bookings.find? (fun b => b.id == bid && b.user_id == uid) = some booking) :
    cancel_booking s bid uid =
      ({ s with
          bookings := s.bookings.map
            (fun b => if b.id == bid then { b with status := BStatus.Cancelled } else b),
          users :=
            if ((if 0 < booking.points_redeemed then booking.points_redeemed else 0) - 10 : Int) ≠ 0
            then updatePoints s.users uid
              (fun x => x + ((if 0 < booking.points_redeemed then booking.points_redeemed else 0) - 10))
            else s.users },
       CancelOutcome.cancelled) := by
  rw [cancel_booking, hu, hb]

/-- C5 as stated fails on the code: in Zdb user 1 has balance 100; a commit
with caller-supplied points_redeemed = −5 stores 100 − (−5) + 10 = 115, and
the subsequent cancellation adds only −10 (the redeemed points are returned
only when positive), leaving 105 ≠ 100. -/
theorem roundtrip_counterexample :
    (findUser Zdb 1).map User.loyalty_points = some 100
    ∧ (findUser (cancel_booking
        (execute_booking Zdb 1 1 "2026-01-01" "10:00" 100 (-5)).1 1 1).1 1).map
        User.loyalty_points = some 105
    ∧ ((105 : Int) ≠ 100) := by
  exact ⟨rfl, rfl, by decide⟩

/-- C5 amended: for every booking with non-negative submitted points p that
an authenticated user commits on a free slot and then cancels, the balance
after the cancellation equals the balance before the commit (+p − 10 at
cancel undoes −p + 10 at commit). -/
theorem commit_cancel_roundtrip (s : DB) (uid tid : Nat) (date time : String)
    (amt : ℚ) (p : Int) (user : User)
    (hu : findUser s uid = some user)
    (hp : 0 ≤ p)
    (hfree : ∀ b ∈ s.bookings, ¬(b.turf_id = tid ∧
      b.booking_time = mkBookingTime date time ∧ b.status = BStatus.Confirmed))
    (hfresh : ∀ b ∈ s.bookings, b.id ≠ s.next_booking_id) :
    (findUser (cancel_booking (execute_booking s uid tid date time amt p).1
        s.next_booking_id uid).1 uid).map User.loyalty_points =
      some user.loyalty_points := by
  have hu' : s.users.find? (fun u => u.id == uid) = some user := hu
  have hnone : s.bookings.find? (isConfirmedAt tid (mkBookingTime date time)) = none := by
    rw [List.find?_eq_none]
    intro b hb hc
    exact hfree b hb ((isConfirmedAt_iff tid (mkBookingTime date time) b).mp hc)
  rw [execute_booking_free_eq s uid tid date time amt p user hu hnone]
  set nb : Booking := ⟨s.next_booking_id, uid, tid, mkBookingTime date time, amt, p,
    BStatus.Confirmed⟩ with hnb
  have h1 : findUser
      ({ s with
          bookings := s.bookings ++ [nb],
          users := updatePoints s.users uid (fun _ => user.loyalty_points - p + 10),
          next_booking_id := s.next_booking_id + 1 } : DB) uid =
      some { user with loyalty_points := user.loyalty_points - p + 10 } := by
    rw [findUser_def]
    dsimp only
    rw [find?_updatePoints, hu']
    rfl
  have h2 : (s.bookings ++ [nb]).find?
      (fun b => b.id == s.next_booking_id && b.user_id == uid) = some nb := by
    rw [List.find?_append]
    have hleft : s.bookings.find?
        (fun b => b.id == s.next_booking_id && b.user_id == uid) = none := by
      rw [List.find?_eq_none]
      intro b hb
      simp [hfresh b hb]
    rw [hleft]
    simp [hnb]
  rw [cancel_booking_found_eq _ _ _ _ nb h1 h2]
  rw [findUser_def]
  dsimp only
  by_cases hch : ((if 0 < nb.points_redeemed then nb.points_redeemed else 0) - 10 : Int) = 0
  · rw [if_neg (not_not_intro hch)]
    rw [find?_updatePoints, hu']
    have hp10 : p = 10 := by
      by_cases hpos : (0 : Int) < p
      · have := hch
        rw [hnb] at this
        simp only [if_pos hpos] at this
        omega
      · have := hch
        rw [hnb] at this
        simp only [if_neg hpos] at this
        omega
    simp [hp10]
  · rw [if_pos hch]
    rw [find?_updatePoints, find?_updatePoints, hu']
    simp only [Option.map_some', Option.some.injEq, hnb]
    by_cases hpos : (0 : Int) < p
    · rw [if_pos hpos]
      omega
    · rw [if_neg hpos]
      omega

/-- C5 amended witness: the spec's worked example on Qdb: balance 60, commit
redeeming 50 points (balance 20), cancel (balance 60 again). -/
theorem commit_cancel_roundtrip_witness :
    (findUser (cancel_booking
        (execute_booking Qdb 1 1 "2026-01-05" "12:00" 750 50).1 1 1).1 1).map
      User.loyalty_points = some 60 := by
  have h := commit_cancel_roundtrip Qdb 1 1 "2026-01-05" "12:00" 750 50
    ⟨1, "dave", "d@x", "h", 60, false⟩ rfl (by decide) (by decide) (by decide)
  simpa using h

theorem bookings_register (s : DB) (u e p : String) :
    (register s u e p).1.bookings = s.bookings := by
  unfold register
  split
  · rfl
  · split <;> rfl

theorem bookings_add_turf (s : DB) (uid : Nat) (n l d : Option String)
    (pr : Option ℚ) (i : Option String) :
    (add_turf s uid n l d pr i).1.bookings = s.bookings := by
  unfold add_turf
  cases findUser s uid
  · rfl
  · dsimp only
    split
    · rfl
    · rcases n with _ | nv <;> rcases l with _ | lv <;> rcases d with _ | dv <;>
        rcases pr with _ | pv <;> rcases i with _ | iv <;> rfl

theorem uniqueConfirmed_remove_turf (s : DB) (uid tid : Nat)
    (h : UniqueConfirmed s) : UniqueConfirmed (remove_turf s uid tid).1 := by
  unfold remove_turf
  cases findUser s uid
  · exact h
  · dsimp only
    split
    · exact h
    · exact List.Pairwise.sublist (List.filter_sublist s.bookings) h

theorem uniqueConfirmed_cancel (s : DB) (bid uid : Nat)
    (h : UniqueConfirmed s) : UniqueConfirmed (cancel_booking s bid uid).1 := by
  unfold cancel_booking
  cases findUser s uid
  · exact h
  · dsimp only
    cases s.bookings.find? (fun b => b.id == bid && b.user_id == uid)
    · exact h
    · dsimp only
      refine List.Pairwise.map _ ?_ h
      intro a b hab hclash
      apply hab
      obtain ⟨h1, h2, h3, h4⟩ := hclash
      refine ⟨?_, ?_, ?_, ?_⟩
      · by_cases hc : (a.id == bid) = true
        · rw [if_pos hc] at h1
          exact absurd h1 (by simp)
        · rwa [if_neg hc] at h1
      · by_cases hc : (b.id == bid) = true
        · rw [if_pos hc] at h2
          exact absurd h2 (by simp)
        · rwa [if_neg hc] at h2
      · by_cases hca : (a.id == bid) = true <;> by_cases hcb : (b.id == bid) = true <;>
          simp only [if_pos, if_neg, hca, hcb, if_true, if_false] at h3 <;> exact h3
      · by_cases hca : (a.id == bid) = true <;> by_cases hcb : (b.id == bid) = true <;>
          simp only [if_pos, if_neg, hca, hcb, if_true, if_false] at h4 <;> exact h4

theorem uniqueConfirmed_execute (s : DB) (uid tid : Nat) (date time : String)
    (amt : ℚ) (p : Int) (h : UniqueConfirmed s) :
    UniqueConfirmed (execute_booking s uid tid date time amt p).1 := by
  unfold execute_booking
  cases findUser s uid
  · exact h
  · dsimp only
    by_cases hf : (s.bookings.find? (isConfirmedAt tid (mkBookingTime date time))).isSome
    · rw [if_pos hf]
      exact h
    · rw [if_neg hf]
      unfold UniqueConfirmed
      dsimp only
      rw [List.pairwise_append]
      refine ⟨h, by simp, ?_⟩
      intro a ha b hb
      simp only [List.mem_singleton] at hb
      subst hb
      intro hclash
      obtain ⟨h1, _, h3, h4⟩ := hclash
      apply hf
      rw [List.find?_isSome]
      refine ⟨a, ha, ?_⟩
      rw [isConfirmedAt_iff]
      exact ⟨h3, h4, h1⟩

/-- C1: every state reachable by sequential execution of the handlers
(registration, turf add/remove, booking commit, cancellation) has at most
one Confirmed booking per (turf, date-time) pair; in particular each of
these operations preserves the invariant. -/
theorem reachable_unique_confirmed (s : DB) (h : Reachable s) :
    UniqueConfirmed s := by
  induction h with
  | init => exact List.Pairwise.nil
  | register s u e p _ ih =>
    unfold UniqueConfirmed
    rw [bookings_register]
    exact ih
  | add_turf s uid n l d pr i _ ih =>
    unfold UniqueConfirmed
    rw [bookings_add_turf]
    exact ih
  | remove_turf s uid tid _ ih => exact uniqueConfirmed_remove_turf s uid tid ih
  | execute_booking s uid tid date time amt p _ ih =>
    exact uniqueConfirmed_execute s uid tid date time amt p ih
  | cancel_booking s bid uid _ ih => exact uniqueConfirmed_cancel s bid uid ih

/-- C1 witness: the state reached from the fresh database by registering a
user and committing one booking satisfies the invariant. -/
theorem reachable_unique_confirmed_witness :
    UniqueConfirmed
      (execute_booking (register DB.init "alice" "a@x" "h").1 1 1
        "2026-01-01" "10:00" 100 0).1 :=
  reachable_unique_confirmed _
    (Reachable.execute_booking _ 1 1 "2026-01-01" "10:00" 100 0
      (Reachable.register _ "alice" "a@x" "h" Reachable.init))

end TurfBooking
